import Mathlib

/-!
Verification development for the fifascraper repository.

The scraper code (src/main.py and src/scraper/historical_scraper.py) is
shallowly embedded here.  HTML pages are modelled at the level of the
parsed structure that the BeautifulSoup queries of the code inspect:
every `find`/`findAll` chain of the source corresponds to a field of the
page structures below, with `Option` marking elements whose absence makes
the corresponding Python attribute access raise.  Fallible Python code is
modelled with `Except String`; the string payload names the Python
exception.  HTTP fetching is modelled by an oracle `fetch : String →
DetailPage` mapping a requested URL to the parsed page, and functions
that issue requests additionally return the list of URLs they requested.

String manipulation is re-implemented over `List Char` so that every
definition evaluates inside the kernel (the built-in `String.trim`,
`String.splitOn`, ... are not kernel-reducible).
-/

deriving instance DecidableEq for Except

/-! ## String primitives (Python semantics, kernel reducible) -/

/-- The apostrophe character, written via its code point. -/
def squoteChar : Char := Char.ofNat 39

/-- The apostrophe as a one-character string. -/
def squoteStr : String := String.mk [squoteChar]

/-- Python `str.split(sep)` for a one-character separator: keeps empty
fields and always returns at least one field. -/
def splitOnChar (sep : Char) : List Char → List (List Char)
  | [] => [[]]
  | c :: rest =>
    let r := splitOnChar sep rest
    if c = sep then [] :: r
    else
      match r with
      | [] => [[c]]
      | g :: gs => (c :: g) :: gs

/-- Python `str.strip()`: remove leading and trailing whitespace. -/
def stripChars (l : List Char) : List Char :=
  ((l.dropWhile Char.isWhitespace).reverse.dropWhile Char.isWhitespace).reverse

/-- Python `str.strip()` on `String`. -/
def pyStrip (s : String) : String := String.mk (stripChars s.data)

/-- Remove every (non-overlapping, leftmost-first) occurrence of `pat`;
the fuel argument makes the recursion structural. -/
def removeAllFuel (pat : List Char) : Nat → List Char → List Char
  | _, [] => []
  | 0, l => l
  | fuel + 1, c :: rest =>
    if pat.isPrefixOf (c :: rest) then
      removeAllFuel pat fuel ((c :: rest).drop pat.length)
    else
      c :: removeAllFuel pat fuel rest

/-- Python `s.replace(pat, "")`: with an empty pattern the string is
returned unchanged (inserting the empty string changes nothing). -/
def pyRemove (s pat : String) : String :=
  if pat.data.isEmpty then s else String.mk (removeAllFuel pat.data s.data.length s.data)

/-- Python `"".join(re.findall("[a-zA-Z]", s))` (also the result of
joining the matches of `[a-zA-Z]*`): the ASCII letters of `s` in order. -/
def alphaOnly (s : String) : String := String.mk (s.data.filter Char.isAlpha)

/-- The first maximal digit run of a string, if any: the single-match
view of `re.findall(r"\d+", s)[0]`. -/
def firstDigitRun (s : String) : Option (List Char) :=
  let rest := s.data.dropWhile (fun c => !c.isDigit)
  match rest with
  | [] => none
  | _ => some (rest.takeWhile Char.isDigit)

/-- Decimal value of a digit run. -/
def digitsToNat (l : List Char) : Nat :=
  l.foldl (fun n c => n * 10 + (c.toNat - 48)) 0

/-- Python `int(re.findall(r"\d+", s)[0])` with the `IndexError` handler
of the source mapping a digit-free string to 0. -/
def firstIntD (s : String) : Nat :=
  match firstDigitRun s with
  | none => 0
  | some ds => digitsToNat ds

/-- Python `str(update_version).zfill(2)` (no sign handling is needed
because the argument is the decimal form of a natural number). -/
def zfill (width : Nat) (s : String) : String :=
  if width ≤ s.data.length then s
  else String.mk (List.replicate (width - s.data.length) '0' ++ s.data)

/-- Lift an optional value to `Except`, the `none` case modelling the
named Python exception. -/
def getOrRaise (o : Option α) (msg : String) : Except String α :=
  match o with
  | some a => Except.ok a
  | none => Except.error msg

/-! ## Listing pages and attribute extraction (historical_scraper lines 34 to 67) -/

/-- An `img` element; `id` is its `id` attribute (`get` returns `None`
rather than raising when the attribute is missing). -/
structure ImgTag where
  id : Option String
deriving DecidableEq

/-- An anchor element with its `title` attribute and text. -/
structure ATag where
  title : Option String
  text : String
deriving DecidableEq

/-- A `td` cell: the anchors `findAll("a")` would return, the `img`
element `find("img")` would return, and the cell text. -/
structure TdCell where
  img : Option ImgTag
  anchors : List ATag
  text : String
deriving DecidableEq

/-- A listing page: `tbody` is what `soup.find("tbody")` yields, holding
one `findAll("td")` result per `tr` row. -/
structure ListingPage where
  tbody : Option (List (List TdCell))

/-- One extracted player row. `pid` and `nationality` are `Option`
because `.get(...)` on a present element returns `None` when the
attribute is absent, without raising. -/
structure PlayerRecord where
  pid : Option String
  name : String
  nationality : Option String
  overall : String
  potential : String
  club : String
  value : String
deriving DecidableEq

/-- The DataFrame built by `extract_player_attributes`: its column list
and one record per table row. -/
structure AttrDF where
  columns : List String
  recs : List PlayerRecord
deriving DecidableEq

/-- Extraction of a single row, in the evaluation order of lines 55 to
63 of the source; the final length check models
`pd.DataFrame([[...7 values...]], columns=player_attributes)` raising
when the column list does not have 7 entries. -/
def extractRow (player_attributes : List String) (td : List TdCell) : Except String PlayerRecord :=
  match td[0]? with
  | none => Except.error "IndexError: td[0]"
  | some td0 =>
    match td0.img with
    | none => Except.error "AttributeError: find img returned None"
    | some img =>
      match td[1]? with
      | none => Except.error "IndexError: td[1]"
      | some td1 =>
        match td1.anchors[0]? with
        | none => Except.error "AttributeError: find a returned None"
        | some a0 =>
          match td1.anchors[1]? with
          | none => Except.error "IndexError: anchors[1]"
          | some a1 =>
            match td[3]? with
            | none => Except.error "IndexError: td[3]"
            | some td3 =>
              match td[4]? with
              | none => Except.error "IndexError: td[4]"
              | some td4 =>
                match td[5]? with
                | none => Except.error "IndexError: td[5]"
                | some td5 =>
                  match td5.anchors[0]? with
                  | none => Except.error "AttributeError: find a in club cell returned None"
                  | some a5 =>
                    match td[6]? with
                    | none => Except.error "IndexError: td[6]"
                    | some td6 =>
                      if player_attributes.length = 7 then
                        Except.ok ⟨img.id, a1.text, a0.title, pyStrip td3.text,
                          pyStrip td4.text, a5.text, pyStrip td6.text⟩
                      else
                        Except.error "ValueError: 7 columns passed, column list length differs"

/-- The row loop of `extract_player_attributes`: rows are processed in
order and the first raising row aborts the whole extraction. -/
def extractRows (player_attributes : List String) : List (List TdCell) → Except String (List PlayerRecord)
  | [] => Except.ok []
  | r :: rs =>
    match extractRow player_attributes r with
    | Except.error e => Except.error e
    | Except.ok rec0 =>
      match extractRows player_attributes rs with
      | Except.error e => Except.error e
      | Except.ok rest => Except.ok (rec0 :: rest)

/-- `extract_player_attributes` (lines 34 to 67). -/
def extract_player_attributes (p : ListingPage) (player_attributes : List String) : Except String AttrDF :=
  match p.tbody with
  | none => Except.error "AttributeError: find tbody returned None"
  | some rows =>
    match extractRows player_attributes rows with
    | Except.error e => Except.error e
    | Except.ok recs => Except.ok ⟨player_attributes, recs⟩

/-! ## Detail pages: version banner, update date, skill map -/

/-- Python dict values occurring in `skill_map`: the skill loop stores
strings, the columns-spacing loop stores ints (always non-negative,
being decimal digit runs or the default 0). -/
inductive PyVal where
  | str (s : String)
  | int (n : Nat)
deriving DecidableEq

/-- A Python dict keyed by strings, as an association list in insertion
order. -/
def SkillMap := List (String × PyVal)
deriving instance DecidableEq for SkillMap

/-- Dict assignment `m[k] = v`: replace in place or append. -/
def dinsert (k : String) (v : PyVal) : SkillMap → SkillMap
  | [] => [(k, v)]
  | (k1, v1) :: rest => if k1 = k then (k, v) :: rest else (k1, v1) :: dinsert k v rest

/-- Dict lookup `m[k]` as an `Option`. -/
def dlookup (k : String) : SkillMap → Option PyVal
  | [] => none
  | (k1, v1) :: rest => if k1 = k then some v1 else dlookup k rest

/-- The result of `datetime.datetime.strptime(s, "%d %b  %Y")`. -/
structure Datetime where
  day : Nat
  month : Nat
  year : Nat
deriving DecidableEq

/-- A row label of a pandas DataFrame: either a positional integer or a
datetime value. -/
inductive Idx where
  | nat (n : Nat)
  | date (d : Datetime)
deriving DecidableEq

/-- A pandas DataFrame as its labelled rows; each row of the statistics
tables carries its `skill_map`. -/
structure DataFrame where
  rows : List (Idx × SkillMap)
deriving DecidableEq

/-- `pd.concat(dfs, sort=True)`: raises on an empty argument list,
otherwise concatenates the rows keeping their labels (`sort=True` only
reorders columns, which the row model does not track). -/
def pdConcat (dfs : List DataFrame) : Except String DataFrame :=
  match dfs with
  | [] => Except.error "ValueError: No objects to concatenate"
  | _ => Except.ok ⟨(dfs.map DataFrame.rows).flatten⟩

/-- `pd.concat(dfs, ignore_index=True)`: like `pdConcat` but the
resulting rows are relabelled 0, 1, 2, ... in order. -/
def pdConcatIgnoreIndex (dfs : List DataFrame) : Except String DataFrame :=
  match dfs with
  | [] => Except.error "ValueError: No objects to concatenate"
  | _ => Except.ok ⟨((dfs.map DataFrame.rows).flatten).enum.map (fun p => (Idx.nat p.1, p.2.2))⟩

/-- A list item inside one of the three skill columns: `label` is the
text of `find("label")` when that element exists, `text` the item text. -/
structure SkillLi where
  label : Option String
  text : String
deriving DecidableEq

/-- The carousel cell `find("div", {"class": "carousel-cell is-initial-select selected"})`:
its text and the text of the contained day tag
`find("a", {"class": "bp3-tag p bp3-intent-primary"})`. -/
structure Carousel where
  text : String
  dayTag : Option String
deriving DecidableEq

/-- One positional-rating cell `div.column.col-sm-2.text-center`:
whether `attribute.find("div")` is truthy, and the cell text. -/
structure CardAttr where
  hasDiv : Bool
  text : String
deriving DecidableEq

/-- One `div.column.col-4` inside a columns-spacing table: `ul` is the
optional list element with the texts of its `li` items. -/
structure SpacingSection where
  ul : Option (List String)
deriving DecidableEq

/-- A detail page, at the granularity of the query chains of the
source.  Each field collapses one `find`/`findAll` chain; `none` means
some element of the chain is missing, making the chained attribute
access raise. -/
structure DetailPage where
  carousel : Option Carousel
  teamsColumns : Option (List (List SkillLi))
  metaText : Option String
  articleMetaSpan : Option String
  cardRows : Option (List (List CardAttr))
  spacingTables : Option (List (List SpacingSection))
deriving DecidableEq

/-- The single anchored match of `re.findall("^FIFA (\\d+)", text)`: the
maximal digit run right after the prefix `"FIFA "`, if present. -/
def fifaBannerDigits (text : String) : Option String :=
  if "FIFA ".data.isPrefixOf text.data then
    let rest := text.data.drop 5
    match rest.takeWhile Char.isDigit with
    | [] => none
    | ds => some (String.mk ds)
  else none

/-- `_source_update_version_is_valid` (lines 70 to 92): raises when the
carousel cell is absent or the version pattern does not match, otherwise
compares `str(fifa_version)` with the extracted digits. -/
def _source_update_version_is_valid (p : DetailPage) (fifa_version : Nat) : Except String Bool :=
  match p.carousel with
  | none => Except.error "AttributeError: carousel cell not found"
  | some car =>
    match fifaBannerDigits car.text with
    | none => Except.error "RuntimeError: the FIFA version was not extracted"
    | some ds => Except.ok (toString fifa_version = ds)

/-- True when the banner has, at position `i` of `tail`, a space
followed by four digits (the pattern closing the capture group of
`"^FIFA \\d{2} (.* \\d{4}).*$"`). -/
def spaceD4At (tail : List Char) (i : Nat) : Bool :=
  decide (i + 5 ≤ tail.length) && (tail.getD i 'x' = ' ') &&
    ((tail.drop (i + 1)).take 4).all Char.isDigit

/-- The capture group of `re.findall("^FIFA \\d{2} (.* \\d{4}).*$", text)`:
after `"FIFA "`, exactly two digits and a space, then the greedy `.*`
makes the group end at the last space-plus-four-digits occurrence. -/
def bannerMonthYear (text : String) : Option String :=
  match text.data with
  | 'F' :: 'I' :: 'F' :: 'A' :: ' ' :: d1 :: d2 :: ' ' :: tail =>
    if d1.isDigit && d2.isDigit then
      match ((List.range tail.length).filter (spaceD4At tail)).getLast? with
      | none => none
      | some i => some (String.mk (tail.take (i + 5)))
    else none
  | _ => none

/-- The lowercase month abbreviations recognised by `%b`. -/
def monthAbbrs : List String := ["jan", "feb", "mar", "apr", "may", "jun", "jul", "aug", "sep", "oct", "nov", "dec"]

/-- ASCII lowercasing of one character. -/
def lowerChar (c : Char) : Char :=
  if 65 ≤ c.toNat && c.toNat ≤ 90 then Char.ofNat (c.toNat + 32) else c

/-- Case-insensitive `%b` month lookup, 1-based. -/
def monthNumber (s : String) : Option Nat :=
  (monthAbbrs.indexOf? (String.mk (s.data.map lowerChar))).map (· + 1)

/-- `_parse_date` (lines 95 to 109), that is
`strptime(str_date, "%d %b  %Y")`: whitespace in the format matches any
whitespace run, `%d` is one or two digits valued 1 to 31, `%b` a month
abbreviation, `%Y` four digits, and nothing may remain unconsumed. -/
def _parse_date (str_date : String) : Except String Datetime :=
  match (splitOnChar ' ' str_date.data).filter (· ≠ []) with
  | [d, m, y] =>
    if d.all Char.isDigit && decide (d.length ≤ 2) && decide (1 ≤ digitsToNat d) && decide (digitsToNat d ≤ 31)
        && y.all Char.isDigit && decide (y.length = 4) then
      match monthNumber (String.mk m) with
      | some mn => Except.ok ⟨digitsToNat d, mn, digitsToNat y⟩
      | none => Except.error "ValueError: time data does not match format"
    else Except.error "ValueError: time data does not match format"
  | _ => Except.error "ValueError: time data does not match format"

/-- `_parse_fifa_update_date` (lines 112 to 131): month and year from
the carousel banner, day of month from the tag element, then
`_parse_date` on their concatenation. -/
def _parse_fifa_update_date (p : DetailPage) : Except String Datetime :=
  match p.carousel with
  | none => Except.error "AttributeError: carousel cell not found"
  | some car =>
    match bannerMonthYear car.text with
    | none => Except.error "IndexError: date pattern not found in banner"
    | some monthYear =>
      match car.dayTag with
      | none => Except.error "AttributeError: day tag not found"
      | some day => _parse_date (day ++ " " ++ monthYear)

/-! ## Stat extraction (`_extract_stats`, lines 152 to 205) -/

/-- The inner loop over the `li` items of one skill column (lines 158
to 163): items with a `label` store the item text with the label text
removed and stripped. -/
def processSkillLis (m : SkillMap) (lis : List SkillLi) : SkillMap :=
  lis.foldl
    (fun acc li =>
      match li.label with
      | none => acc
      | some lab => dinsert lab (PyVal.str (pyStrip (pyRemove li.text lab))) acc)
    m

/-- The loop over the three `column col-4` skill columns. -/
def processColumns (m : SkillMap) (cols : List (List SkillLi)) : SkillMap :=
  cols.foldl processSkillLis m

/-- Height reconstruction from the penultimate metadata token (line
167): `tok.split(squote)[0] + squote + tok.split(squote)[1].split(dquote)[0]`,
raising `IndexError` when the token has no apostrophe. -/
def heightFromToken (tok : List Char) : Except String String :=
  match splitOnChar squoteChar tok with
  | p0 :: p1 :: _ =>
    Except.ok (String.mk (p0 ++ [squoteChar] ++ (splitOnChar '"' p1).headD []))
  | _ => Except.error "IndexError: list index out of range"

/-- Lines 164 to 169: split the metadata text on single spaces, take the
last token as weight and rebuild the height from the penultimate one
(for a single token, the Python index `length - 2 = -1` wraps to that
same token, which Nat subtraction reproduces).  Height is stored before
weight. -/
def processMeta (m : SkillMap) (metaText : String) : Except String SkillMap :=
  let meta_data := splitOnChar ' ' metaText.data
  let weight := String.mk (meta_data.getD (meta_data.length - 1) [])
  match heightFromToken (meta_data.getD (meta_data.length - 2) []) with
  | Except.error e => Except.error e
  | Except.ok height =>
    Except.ok (dinsert "Weight" (PyVal.str weight) (dinsert "Height" (PyVal.str height) m))

/-- One positional-rating cell (lines 179 to 183): only cells whose
`find("div")` is truthy contribute; the name is the letters of the cell
text and the value the cell text with the name removed and stripped. -/
def processCardAttr (m : SkillMap) (a : CardAttr) : SkillMap :=
  if a.hasDiv then
    let name := alphaOnly a.text
    dinsert name (PyVal.str (pyStrip (pyRemove a.text name))) m
  else m

/-- Lines 170 to 183: when a `Position` entry exists, re-derive a blank,
RES or SUB position from the article metadata span, then, when the
resolved position is not GK, fold in every positional-rating cell of the
aside card. -/
def cardSection (p : DetailPage) (m : SkillMap) : Except String SkillMap :=
  match dlookup "Position" m with
  | none => Except.ok m
  | some pos =>
    let step1 : Except String SkillMap :=
      if pos = PyVal.str "" ∨ pos = PyVal.str "RES" ∨ pos = PyVal.str "SUB" then
        match p.articleMetaSpan with
        | none => Except.error "AttributeError: article meta span not found"
        | some spanText => Except.ok (dinsert "Position" (PyVal.str spanText) m)
      else Except.ok m
    match step1 with
    | Except.error e => Except.error e
    | Except.ok m1 =>
      if dlookup "Position" m1 ≠ some (PyVal.str "GK") then
        match p.cardRows with
        | none => Except.error "AttributeError: aside card body not found"
        | some rows => Except.ok (rows.foldl (fun acc row => row.foldl processCardAttr acc) m1)
      else Except.ok m1

/-- The `li` texts of one columns-spacing section (`find("ul")` missing
means the section is skipped). -/
def sectionItems (sec : SpacingSection) : List String :=
  sec.ul.getD []

/-- The entry stored for one spacing list item (lines 196 to 201): the
key is the letters of the item text, the value its first embedded
integer, 0 when the text has no digit. -/
def spacingEntry (t : String) : String × PyVal :=
  (alphaOnly t, PyVal.int (firstIntD t))

/-- The loop over the sections of the two columns-spacing tables. -/
def processSections (m : SkillMap) (sections : List SpacingSection) : SkillMap :=
  sections.foldl
    (fun acc sec =>
      match sec.ul with
      | none => acc
      | some items => items.foldl (fun a t => dinsert (spacingEntry t).1 (spacingEntry t).2 a) acc)
    m

/-- `_extract_stats` (lines 152 to 205): build the skill map from the
teams columns, the metadata text, the position-dependent card section
and the two columns-spacing tables, and return a one-row DataFrame
labelled by the given date.  The `player_statistics` argument is passed
by the callers but never used, as in the source. -/
def _extract_stats (p : DetailPage) (player_statistics : List String) (date : Datetime) : Except String DataFrame :=
  match p.teamsColumns with
  | none => Except.error "AttributeError: teams columns not found"
  | some cols =>
    let m0 := processColumns [] cols
    match p.metaText with
    | none => Except.error "AttributeError: meta div not found"
    | some metaT =>
      match processMeta m0 metaT with
      | Except.error e => Except.error e
      | Except.ok m1 =>
        match cardSection p m1 with
        | Except.error e => Except.error e
        | Except.ok m2 =>
          match p.spacingTables with
          | none => Except.error "AttributeError: article not found"
          | some tables =>
            match tables[0]? with
            | none => Except.error "IndexError: all_tables[0]"
            | some t0 =>
              match tables[1]? with
              | none => Except.error "IndexError: all_tables[1]"
              | some t1 =>
                Except.ok ⟨[(Idx.date date, processSections m2 (t0 ++ t1))]⟩

/-- The item texts of the two columns-spacing tables, in processing
order, mirroring the section selection of `_extract_stats`. -/
def spacingItemTexts (p : DetailPage) : List String :=
  match p.spacingTables with
  | none => []
  | some tables =>
    match tables[0]? with
    | none => []
    | some t0 =>
      match tables[1]? with
      | none => []
      | some t1 => (t0 ++ t1).flatMap sectionItems

/-! ## Per-update and per-version retrieval (lines 208 to 273) -/

/-- The URL requested for one update revision (lines 229 to 231):
`player_url + "?r=" + str(fifa_version) + "00" + str(update_version).zfill(2) + "&set=true"`. -/
def updateUrl (player_url : String) (fifa_version update_version : Nat) : String :=
  player_url ++ "?r=" ++ toString fifa_version ++ "00" ++ zfill 2 (toString update_version) ++ "&set=true"

/-- `retrieve_player_stats_by_fifa_update` (lines 208 to 240).  The
`fetch` oracle stands for `BeautifulSoup(requests.get(url).text)`; the
second component records the URLs requested by the call. -/
def retrieve_player_stats_by_fifa_update (fetch : String → DetailPage) (player_url : String)
    (player_statistics : List String) (fifa_version update_version : Nat) :
    Except String DataFrame × List String :=
  let url := updateUrl player_url fifa_version update_version
  let p := fetch url
  let res : Except String DataFrame :=
    match _source_update_version_is_valid p fifa_version with
    | Except.error e => Except.error e
    | Except.ok false => Except.ok ⟨[]⟩
    | Except.ok true =>
      match _parse_fifa_update_date p with
      | Except.error e => Except.error e
      | Except.ok date => _extract_stats p player_statistics date
  (res, [url])

/-- `LAST_UPDATE_PER_FIFA_VERSION` (line 10), as a partial lookup whose
`none` case is the dict `KeyError`. -/
def LAST_UPDATE_PER_FIFA_VERSION (v : Nat) : Option Nat :=
  if v = 16 then some 58
  else if v = 17 then some 99
  else if v = 18 then some 84
  else if v = 19 then some 75
  else if v = 20 then some 8
  else none

/-- The revision loop of `retrieve_player_stats_by_fifa_version`: one
per-update call per revision number, aborting at the first raised
exception, accumulating the per-update DataFrames and the request log. -/
def runUpdates (fetch : String → DetailPage) (player_url : String) (player_statistics : List String)
    (fifa_version : Nat) : List Nat → Except String (List DataFrame) × List String
  | [] => (Except.ok [], [])
  | u :: us =>
    match retrieve_player_stats_by_fifa_update fetch player_url player_statistics fifa_version u with
    | (Except.error e, log) => (Except.error e, log)
    | (Except.ok df, log) =>
      match runUpdates fetch player_url player_statistics fifa_version us with
      | (r, log2) => (r.map (df :: ·), log ++ log2)

/-- `retrieve_player_stats_by_fifa_version` (lines 243 to 273): the
catalog lookup happens when `range(1, ... + 1)` is built, before any
request; then every revision from 1 to the catalog count is fetched and
the per-update tables are concatenated with `pd.concat(..., sort=True)`. -/
def retrieve_player_stats_by_fifa_version (fetch : String → DetailPage) (base_url player_id : String)
    (player_statistics : List String) (fifa_version : Nat) :
    Except String DataFrame × List String :=
  match LAST_UPDATE_PER_FIFA_VERSION fifa_version with
  | none => (Except.error "KeyError", [])
  | some c =>
    match runUpdates fetch (base_url ++ player_id) player_statistics fifa_version (List.range' 1 c) with
    | (Except.error e, log) => (Except.error e, log)
    | (Except.ok dfs, log) => (pdConcat dfs, log)

/-! ## Splitting, workers and aggregation (lines 134 to 149, 276 to 373) -/

/-- The chunk sizes of `np.array_split(arr, n)`: with `q, r = divmod(len, n)`,
the first `r` sections get `q + 1` elements and the remaining `n - r`
get `q`. -/
def chunkSizes (len n : Nat) : List Nat :=
  List.replicate (len % n) (len / n + 1) ++ List.replicate (n - len % n) (len / n)

/-- Cut a list into consecutive chunks of the given sizes. -/
def takeChunks : List α → List Nat → List (List α)
  | _, [] => []
  | l, k :: ks => l.take k :: takeChunks (l.drop k) ks

/-- `_compute_id_splits` (lines 134 to 149), that is
`np.array_split(np.array(list_to_split), n_split)`; `numpy` raises for a
non-positive section count. -/
def _compute_id_splits (list_to_split : List α) (n_split : Nat) : Except String (List (List α)) :=
  if n_split = 0 then Except.error "ValueError: number sections must be larger than 0."
  else Except.ok (takeChunks list_to_split (chunkSizes list_to_split.length n_split))

/-- The scraper object state (lines 276 to 281). -/
structure HistoricalScraper where
  number_of_players_pages : Nat
  player_per_request : Nat
  player_attributes_url : String
  player_statistics_url : String

/-- Lines 313 to 317 for one player and one version: retrieve the
per-version table and set its `player_id` column to the player id on
every row. -/
def statsForPlayerVersion (fetch : String → DetailPage) (base_url : String)
    (player_statistics : List String) (player_id : String) (fifa_version : Nat) :
    Except String DataFrame × List String :=
  match retrieve_player_stats_by_fifa_version fetch base_url player_id player_statistics fifa_version with
  | (Except.error e, log) => (Except.error e, log)
  | (Except.ok df, log) =>
    (Except.ok ⟨df.rows.map (fun r => (r.1, dinsert "player_id" (PyVal.str player_id) r.2))⟩, log)

/-- The accumulation loop of the worker (lines 310 to 320), flattened
over the player-id times version iteration space, aborting at the first
raised exception. -/
def collectStats (fetch : String → DetailPage) (base_url : String) (player_statistics : List String) :
    List (String × Nat) → Except String (List DataFrame) × List String
  | [] => (Except.ok [], [])
  | (pid, v) :: rest =>
    match statsForPlayerVersion fetch base_url player_statistics pid v with
    | (Except.error e, log) => (Except.error e, log)
    | (Except.ok df, log) =>
      match collectStats fetch base_url player_statistics rest with
      | (r, log2) => (r.map (df :: ·), log ++ log2)

/-- `_single_thread_download_historical_player_statistics` (lines 300 to
333): iterate every assigned player id over every requested version and
concatenate the accumulated tables with `pd.concat(..., sort=True)`,
which raises when nothing was accumulated.  The parquet write of the
`save` branch is a file side effect outside the model. -/
def _single_thread_download_historical_player_statistics (fetch : String → DetailPage)
    (self : HistoricalScraper) (player_ids : List String) (player_statistics : List String)
    (starting_fifa_version ending_fifa_version : Nat) (save : Bool) :
    Except String DataFrame × List String :=
  match collectStats fetch self.player_statistics_url player_statistics
      (player_ids.flatMap fun pid =>
        (List.range' starting_fifa_version (ending_fifa_version + 1 - starting_fifa_version)).map
          fun v => (pid, v)) with
  | (Except.error e, log) => (Except.error e, log)
  | (Except.ok dfs, log) => (pdConcat dfs, log)

/-- Sequence the worker results as `Pool.starmap` surfaces them: any
raised exception propagates, otherwise all results are collected. -/
def sequenceExcept : List (Except String α) → Except String (List α)
  | [] => Except.ok []
  | Except.error e :: _ => Except.error e
  | Except.ok a :: rest => (sequenceExcept rest).map (a :: ·)

/-- `download_historical_player_statistics` (lines 335 to 373): split
the ids, run one worker per chunk, and concatenate the worker tables
with `pd.concat(..., ignore_index=True)`. -/
def download_historical_player_statistics (fetch : String → DetailPage) (self : HistoricalScraper)
    (player_ids : List String) (player_statistics : List String)
    (starting_fifa_version ending_fifa_version : Nat) (n_threads : Nat) :
    Except String DataFrame × List String :=
  match _compute_id_splits player_ids n_threads with
  | Except.error e => (Except.error e, [])
  | Except.ok chunks =>
    match sequenceExcept ((chunks.map (fun c =>
        _single_thread_download_historical_player_statistics fetch self c player_statistics
          starting_fifa_version ending_fifa_version true)).map Prod.fst) with
    | Except.error e =>
      (Except.error e, ((chunks.map (fun c =>
        _single_thread_download_historical_player_statistics fetch self c player_statistics
          starting_fifa_version ending_fifa_version true)).map Prod.snd).flatten)
    | Except.ok dfs =>
      (pdConcatIgnoreIndex dfs, ((chunks.map (fun c =>
        _single_thread_download_historical_player_statistics fetch self c player_statistics
          starting_fifa_version ending_fifa_version true)).map Prod.snd).flatten)

/-! ## Resume logic of main.py (lines 45 to 56) -/

/-- `np.unique`: the distinct values, sorted ascending. -/
def np_unique [LinearOrder α] [DecidableEq α] (l : List α) : List α :=
  List.insertionSort (· ≤ ·) l.dedup

/-- `np.setdiff1d(ar1, ar2)`: the sorted unique values of `ar1` that are
not in `ar2`. -/
def np_setdiff1d [LinearOrder α] [DecidableEq α] (ar1 ar2 : List α) : List α :=
  (np_unique ar1).filter (fun x => decide (x ∉ ar2))

/-- Line 51 of main.py: the ids still to fetch are
`np.setdiff1d(player_ids, partial_player_stats["player_api_id"].values)`. -/
def players_ids_to_compute [LinearOrder α] [DecidableEq α] (player_ids prev_ids : List α) : List α :=
  np_setdiff1d player_ids prev_ids

/-! ## Structural row predicates and the per-row field description -/

/-- A cell with nothing in it, used as an out-of-range default (the
defaults are never reached under the length conditions in force). -/
def defaultTd : TdCell := ⟨none, [], ""⟩

/-- An anchor with nothing in it, used as an out-of-range default. -/
def defaultA : ATag := ⟨none, ""⟩

/-- The elements whose absence makes `extractRow` raise: at least 7
cells, an `img` in the first cell, two anchors in the name cell and an
anchor in the club cell.  Missing `id` or `title` attributes do not
raise because `get` returns `None`. -/
def rowStructOk (td : List TdCell) : Bool :=
  decide (7 ≤ td.length) && (td.getD 0 defaultTd).img.isSome &&
    decide (2 ≤ (td.getD 1 defaultTd).anchors.length) && !(td.getD 5 defaultTd).anchors.isEmpty

/-- A well-formed listing row: all structural elements present and the
identifier and nationality attributes set. -/
def wellFormedRow (td : List TdCell) : Bool :=
  rowStructOk td && ((td.getD 0 defaultTd).img.bind ImgTag.id).isSome &&
    ((td.getD 1 defaultTd).anchors.getD 0 defaultA).title.isSome

/-- The fields `extractRow` assembles from a structurally complete row:
identifier from the `img` id attribute, nationality from the first
anchor title, name from the second anchor text, trimmed overall cell
text, trimmed potential and value cell texts, and the text of the first
anchor of the club cell. -/
def rowFields (td : List TdCell) : PlayerRecord :=
  ⟨((td.getD 0 defaultTd).img.bind ImgTag.id),
   ((td.getD 1 defaultTd).anchors.getD 1 defaultA).text,
   ((td.getD 1 defaultTd).anchors.getD 0 defaultA).title,
   pyStrip (td.getD 3 defaultTd).text,
   pyStrip (td.getD 4 defaultTd).text,
   ((td.getD 5 defaultTd).anchors.getD 0 defaultA).text,
   pyStrip (td.getD 6 defaultTd).text⟩

/-- The spec reading of the columns-spacing label: the item text with
its numeric characters removed (kept verbatim from the specification
for comparison with the implemented `alphaOnly`). -/
def nonNumericSubstring (s : String) : String :=
  String.mk (s.data.filter (fun c => !c.isDigit))

/-! ## Concrete fixtures for witnesses and counterexamples -/

/-- The seven attribute column names of main.py. -/
def SEVEN_COLS : List String := ["ID", "Name", "Nationality", "Overall", "Potential", "Club", "Value"]

/-- A well-formed listing row whose club cell text differs from the
text of its anchor. -/
def fixRow : List TdCell :=
  [⟨some ⟨some "158023"⟩, [], ""⟩,
   ⟨none, [⟨some "Argentina", "flag"⟩, ⟨none, "L. Messi"⟩], ""⟩,
   ⟨none, [], "photo"⟩,
   ⟨none, [], " 94 "⟩,
   ⟨none, [], " 94"⟩,
   ⟨none, [⟨none, "FC Barcelona"⟩], " FC Barcelona extra "⟩,
   ⟨none, [], " EUR 110M "⟩]

/-- A listing page with the single well-formed row above. -/
def fixListing : ListingPage := ⟨some [fixRow]⟩

/-- A listing page whose second row lacks the `img` element. -/
def fixBadListing : ListingPage := ⟨some [fixRow, [⟨none, [], ""⟩]]⟩

/-- A carousel banner matching FIFA 20 with update date 24 Sep 2019. -/
def fixCarousel : Carousel := ⟨"FIFA 20 Sep 2019", some "24"⟩

/-- The metadata text `6ft2in 170lbs` written with quote marks. -/
def fixMeta : String := "6" ++ squoteStr ++ "2\" 170lbs"

/-- The extracted height string. -/
def fixHeight : String := "6" ++ squoteStr ++ "2"

/-- A minimal valid FIFA 20 detail page: no skill columns, no position
entry, two empty columns-spacing tables. -/
def validPage : DetailPage := ⟨some fixCarousel, some [], some fixMeta, none, none, some [[], []]⟩

/-- An oracle answering every URL with the valid FIFA 20 page. -/
def validFetch : String → DetailPage := fun _ => validPage

/-- The date extracted from `validPage`. -/
def fixDate : Datetime := ⟨24, 9, 2019⟩

/-- A detail page whose banner belongs to FIFA 19. -/
def mismatchPage : DetailPage := ⟨some ⟨"FIFA 19 Sep 2019", some "24"⟩, none, none, none, none, none⟩

/-- An oracle answering every URL with the FIFA 19 page. -/
def mismatchFetch : String → DetailPage := fun _ => mismatchPage

/-- A valid FIFA 20 page with one columns-spacing item of text `A B1`. -/
def spacingPage : DetailPage :=
  ⟨some fixCarousel, some [], some fixMeta, none, none, some [[⟨some ["A B1"]⟩], []]⟩

/-- An oracle answering every URL with the spacing fixture page. -/
def spacingFetch : String → DetailPage := fun _ => spacingPage

/-- A scraper object with the constants of main.py. -/
def fixScraper : HistoricalScraper :=
  ⟨350, 60, "https://sofifa.com/players?offset=", "https://sofifa.com/player/"⟩

/-- Folding a list of key-value pairs into a dict by repeated
assignment; the normal form of the spacing-section loops. -/
def applyEntries (m : SkillMap) (es : List (String × PyVal)) : SkillMap :=
  es.foldl (fun a e => dinsert e.1 e.2 a) m

/-- The per-version retrieval of player 7 for FIFA 20 against the
FIFA 19 oracle, used to witness the request-count claim. -/
def c3res : Except String DataFrame × List String :=
  retrieve_player_stats_by_fifa_version mismatchFetch "https://sofifa.com/player/" "7" [] 20

/-- The one-row table extracted from the valid fixture page. -/
def c5df : DataFrame :=
  ⟨[(Idx.date fixDate, [("Height", PyVal.str fixHeight), ("Weight", PyVal.str "170lbs")])]⟩

/-- A complete one-player one-thread download against the valid oracle. -/
def c9res : Except String DataFrame × List String :=
  download_historical_player_statistics validFetch fixScraper ["a"] [] 20 20 1

/-- The table of the download above. -/
def c9df : DataFrame :=
  match c9res.1 with
  | Except.ok df => df
  | Except.error _ => ⟨[]⟩


/-! ## Helper lemmas: dict semantics -/

theorem dlookup_dinsert_self (k : String) (v : PyVal) (m : SkillMap) :
    dlookup k (dinsert k v m) = some v := by
  induction m with
  | nil => simp [dinsert, dlookup]
  | cons e rest ih =>
    obtain ⟨k1, v1⟩ := e
    by_cases h : k1 = k
    · simp [dinsert, dlookup, h]
    · simp [dinsert, dlookup, h, ih]

theorem dlookup_dinsert_ne (k k1 : String) (v : PyVal) (m : SkillMap) (h : k1 ≠ k) :
    dlookup k (dinsert k1 v m) = dlookup k m := by
  induction m with
  | nil => simp [dinsert, dlookup, h]
  | cons e rest ih =>
    obtain ⟨k2, v2⟩ := e
    by_cases h2 : k2 = k1
    · subst h2
      simp [dinsert, dlookup, h]
    · by_cases h3 : k2 = k
      · subst h3
        simp [dinsert, dlookup, h2]
      · simp [dinsert, dlookup, h2, h3, ih]

theorem dlookup_applyEntries_notmem (k : String) (m : SkillMap) (es : List (String × PyVal))
    (h : ∀ e ∈ es, e.1 ≠ k) : dlookup k (applyEntries m es) = dlookup k m := by
  induction es generalizing m with
  | nil => rfl
  | cons e rest ih =>
    have hne : e.1 ≠ k := h e (List.mem_cons_self e rest)
    have hrest : ∀ e2 ∈ rest, e2.1 ≠ k := fun e2 he2 => h e2 (List.mem_cons_of_mem e he2)
    calc dlookup k (applyEntries m (e :: rest))
        = dlookup k (applyEntries (dinsert e.1 e.2 m) rest) := rfl
      _ = dlookup k (dinsert e.1 e.2 m) := ih _ hrest
      _ = dlookup k m := dlookup_dinsert_ne k e.1 e.2 m hne

theorem dlookup_applyEntries_last (k : String) (v : PyVal) (m : SkillMap)
    (es1 es2 : List (String × PyVal)) (h2 : ∀ e ∈ es2, e.1 ≠ k) :
    dlookup k (applyEntries m (es1 ++ (k, v) :: es2)) = some v := by
  induction es1 generalizing m with
  | nil =>
    calc dlookup k (applyEntries m ((k, v) :: es2))
        = dlookup k (applyEntries (dinsert k v m) es2) := rfl
      _ = dlookup k (dinsert k v m) := dlookup_applyEntries_notmem k _ es2 h2
      _ = some v := dlookup_dinsert_self k v m
  | cons e rest ih => exact ih (dinsert e.1 e.2 m)

theorem processSections_eq_applyEntries (m : SkillMap) (secs : List SpacingSection) :
    processSections m secs = applyEntries m ((secs.flatMap sectionItems).map spacingEntry) := by
  induction secs generalizing m with
  | nil => rfl
  | cons sec rest ih =>
    have hstep : ∀ m1 : SkillMap,
        (match sec.ul with
          | none => m1
          | some items => items.foldl (fun a t => dinsert (spacingEntry t).1 (spacingEntry t).2 a) m1) =
        applyEntries m1 ((sectionItems sec).map spacingEntry) := by
      intro m1
      cases hu : sec.ul with
      | none => simp [sectionItems, hu, applyEntries]
      | some items =>
        simp only [sectionItems, hu, Option.getD_some, applyEntries, List.foldl_map]
    calc processSections m (sec :: rest)
        = processSections
            (match sec.ul with
              | none => m
              | some items => items.foldl (fun a t => dinsert (spacingEntry t).1 (spacingEntry t).2 a) m)
            rest := rfl
      _ = applyEntries (applyEntries m ((sectionItems sec).map spacingEntry))
            ((rest.flatMap sectionItems).map spacingEntry) := by rw [ih, hstep]
      _ = applyEntries m (((sec :: rest).flatMap sectionItems).map spacingEntry) := by
            simp [applyEntries, List.flatMap_cons, List.map_append, List.foldl_append]

/-! ## Helper lemmas: chunking -/

theorem takeChunks_length (ks : List Nat) (l : List α) :
    (takeChunks l ks).length = ks.length := by
  induction ks generalizing l with
  | nil => rfl
  | cons k rest ih => simp [takeChunks, ih]

theorem takeChunks_flatten (ks : List Nat) (l : List α) (h : ks.sum ≤ l.length) :
    (takeChunks l ks).flatten = l.take ks.sum := by
  induction ks generalizing l with
  | nil => simp [takeChunks]
  | cons k rest ih =>
    have hk : k + rest.sum ≤ l.length := by simpa [List.sum_cons] using h
    have hrest : rest.sum ≤ (l.drop k).length := by
      simp only [List.length_drop]
      omega
    calc (takeChunks l (k :: rest)).flatten
        = l.take k ++ (takeChunks (l.drop k) rest).flatten := rfl
      _ = l.take k ++ (l.drop k).take rest.sum := by rw [ih _ hrest]
      _ = l.take (k + rest.sum) := (List.take_add l k rest.sum).symm
      _ = l.take (k :: rest).sum := by simp [List.sum_cons]

theorem takeChunks_map_length (ks : List Nat) (l : List α) (h : ks.sum ≤ l.length) :
    (takeChunks l ks).map List.length = ks := by
  induction ks generalizing l with
  | nil => rfl
  | cons k rest ih =>
    have hk : k ≤ l.length := by
      have := List.sum_cons (a := k) (l := rest) ▸ h
      omega
    have hrest : rest.sum ≤ (l.drop k).length := by
      have := List.sum_cons (a := k) (l := rest) ▸ h
      simp only [List.length_drop]
      omega
    calc (takeChunks l (k :: rest)).map List.length
        = (l.take k).length :: (takeChunks (l.drop k) rest).map List.length := rfl
      _ = k :: rest := by rw [ih _ hrest, List.length_take, min_eq_left hk]

theorem chunkSizes_sum (len n : Nat) (h : n ≠ 0) : (chunkSizes len n).sum = len := by
  have hr : len % n < n := Nat.mod_lt _ (Nat.pos_of_ne_zero h)
  have hdm := Nat.div_add_mod len n
  simp only [chunkSizes, List.sum_append, List.sum_replicate, smul_eq_mul]
  have : (n - len % n) * (len / n) = n * (len / n) - (len % n) * (len / n) := by
    rw [Nat.sub_mul]
  rw [this]
  have hle : (len % n) * (len / n) ≤ n * (len / n) :=
    Nat.mul_le_mul_right _ (Nat.le_of_lt hr)
  calc (len % n) * (len / n + 1) + (n * (len / n) - (len % n) * (len / n))
      = (len % n) * (len / n) + (len % n) + (n * (len / n) - (len % n) * (len / n)) := by
        rw [Nat.mul_add, Nat.mul_one]
    _ = len := by omega

theorem chunkSizes_length (len n : Nat) (h : n ≠ 0) : (chunkSizes len n).length = n := by
  have hr : len % n < n := Nat.mod_lt _ (Nat.pos_of_ne_zero h)
  simp only [chunkSizes, List.length_append, List.length_replicate]
  omega

theorem chunkSizes_mem (len n x : Nat) (hx : x ∈ chunkSizes len n) :
    x = len / n ∨ x = len / n + 1 := by
  rcases List.mem_append.mp hx with hl | hr
  · exact Or.inr (List.eq_of_mem_replicate hl)
  · exact Or.inl (List.eq_of_mem_replicate hr)

theorem sum_le_length_of_all_le_one (l : List Nat) (h : ∀ x ∈ l, x ≤ 1) :
    l.sum ≤ l.length := by
  induction l with
  | nil => simp
  | cons x rest ih =>
    have hx : x ≤ 1 := h x (List.mem_cons_self x rest)
    have := ih (fun y hy => h y (List.mem_cons_of_mem x hy))
    simp only [List.sum_cons, List.length_cons]
    omega

/-! ## Helper lemmas: listing rows -/

theorem getD_of_getElem?_some {β : Type} (l : List β) (i : Nat) (d x : β)
    (h : l[i]? = some x) : l.getD i d = x := by
  rw [List.getD_eq_getElem?_getD, h]
  rfl

theorem getElem?_eq_some_getD {β : Type} (l : List β) (i : Nat) (d : β)
    (h : i < l.length) : l[i]? = some (l.getD i d) := by
  rw [List.getElem?_eq_getElem h, List.getD_eq_getElem?_getD, List.getElem?_eq_getElem h]
  rfl

theorem lt_length_of_getElem?_some {β : Type} (l : List β) (i : Nat) (x : β)
    (h : l[i]? = some x) : i < l.length := by
  by_contra hc
  rw [List.getElem?_eq_none (by omega)] at h
  exact Option.noConfusion h

theorem extractRow_ok_of_struct (cols : List String) (td : List TdCell)
    (h : rowStructOk td = true) (hc : cols.length = 7) :
    extractRow cols td = Except.ok (rowFields td) := by
  simp only [rowStructOk, Bool.and_eq_true, decide_eq_true_eq, Bool.not_eq_true',
    List.isEmpty_eq_false_iff_exists_mem] at h
  obtain ⟨⟨⟨h7, himg⟩, h2a⟩, h5a⟩ := h
  obtain ⟨img0, himg0⟩ := Option.isSome_iff_exists.mp himg
  have h5len : 0 < (td.getD 5 defaultTd).anchors.length := by
    obtain ⟨a, ha⟩ := h5a
    exact List.length_pos.mpr (List.ne_nil_of_mem ha)
  unfold extractRow
  simp only [getElem?_eq_some_getD td 0 defaultTd (by omega),
    getElem?_eq_some_getD td 1 defaultTd (by omega),
    getElem?_eq_some_getD td 3 defaultTd (by omega),
    getElem?_eq_some_getD td 4 defaultTd (by omega),
    getElem?_eq_some_getD td 5 defaultTd (by omega),
    getElem?_eq_some_getD td 6 defaultTd (by omega)]
  simp only [himg0,
    getElem?_eq_some_getD (td.getD 1 defaultTd).anchors 0 defaultA (by omega),
    getElem?_eq_some_getD (td.getD 1 defaultTd).anchors 1 defaultA (by omega),
    getElem?_eq_some_getD (td.getD 5 defaultTd).anchors 0 defaultA (by omega)]
  simp only [hc, if_pos]
  unfold rowFields
  rw [himg0]
  rfl

theorem extractRow_error_of_not_struct (cols : List String) (td : List TdCell)
    (h : rowStructOk td = false) : ∃ e, extractRow cols td = Except.error e := by
  cases h0 : td[0]? with
  | none => exact ⟨_, by unfold extractRow; simp only [h0]; rfl⟩
  | some td0 =>
  cases himg : td0.img with
  | none => exact ⟨_, by unfold extractRow; simp only [h0, himg]; rfl⟩
  | some img =>
  cases h1 : td[1]? with
  | none => exact ⟨_, by unfold extractRow; simp only [h0, himg, h1]; rfl⟩
  | some td1 =>
  cases ha0 : td1.anchors[0]? with
  | none => exact ⟨_, by unfold extractRow; simp only [h0, himg, h1, ha0]; rfl⟩
  | some a0 =>
  cases ha1 : td1.anchors[1]? with
  | none => exact ⟨_, by unfold extractRow; simp only [h0, himg, h1, ha0, ha1]; rfl⟩
  | some a1 =>
  cases h3 : td[3]? with
  | none => exact ⟨_, by unfold extractRow; simp only [h0, himg, h1, ha0, ha1, h3]; rfl⟩
  | some td3 =>
  cases h4 : td[4]? with
  | none => exact ⟨_, by unfold extractRow; simp only [h0, himg, h1, ha0, ha1, h3, h4]; rfl⟩
  | some td4 =>
  cases h5 : td[5]? with
  | none => exact ⟨_, by unfold extractRow; simp only [h0, himg, h1, ha0, ha1, h3, h4, h5]; rfl⟩
  | some td5 =>
  cases ha5 : td5.anchors[0]? with
  | none => exact ⟨_, by unfold extractRow; simp only [h0, himg, h1, ha0, ha1, h3, h4, h5, ha5]; rfl⟩
  | some a5 =>
  cases h6 : td[6]? with
  | none => exact ⟨_, by unfold extractRow; simp only [h0, himg, h1, ha0, ha1, h3, h4, h5, ha5, h6]; rfl⟩
  | some td6 =>
  exfalso
  have hlen : 6 < td.length := lt_length_of_getElem?_some td 6 td6 h6
  have hg0 : td.getD 0 defaultTd = td0 := getD_of_getElem?_some td 0 defaultTd td0 h0
  have hg1 : td.getD 1 defaultTd = td1 := getD_of_getElem?_some td 1 defaultTd td1 h1
  have hg5 : td.getD 5 defaultTd = td5 := getD_of_getElem?_some td 5 defaultTd td5 h5
  have ha1len : 1 < td1.anchors.length := lt_length_of_getElem?_some td1.anchors 1 a1 ha1
  have ha5len : 0 < td5.anchors.length := lt_length_of_getElem?_some td5.anchors 0 a5 ha5
  rw [rowStructOk, hg0, hg1, hg5, himg] at h
  simp only [Bool.and_eq_false_iff, decide_eq_false_iff_not, Option.isSome_some,
    Bool.not_eq_false', List.isEmpty_iff] at h
  rcases h with ((h | h) | h) | h
  · omega
  · exact Bool.noConfusion h
  · omega
  · rw [h] at ha5len
    simp at ha5len

theorem extractRows_ok_of_struct (cols : List String) (rows : List (List TdCell))
    (h : ∀ r ∈ rows, rowStructOk r = true) (hc : cols.length = 7) :
    extractRows cols rows = Except.ok (rows.map rowFields) := by
  induction rows with
  | nil => rfl
  | cons r rs ih =>
    have hr := extractRow_ok_of_struct cols r (h r (List.mem_cons_self r rs)) hc
    have hrs := ih (fun r2 hr2 => h r2 (List.mem_cons_of_mem r hr2))
    rw [extractRows, hr, hrs]
    rfl

theorem extractRows_error_of_bad_row (cols : List String) (rows : List (List TdCell))
    (r : List TdCell) (hmem : r ∈ rows) (hbad : rowStructOk r = false) :
    ∃ e, extractRows cols rows = Except.error e := by
  induction rows with
  | nil => exact absurd hmem (List.not_mem_nil r)
  | cons r0 rs ih =>
    rcases List.mem_cons.mp hmem with heq | hmem2
    · subst heq
      obtain ⟨e, he⟩ := extractRow_error_of_not_struct cols r hbad
      exact ⟨e, by rw [extractRows, he]⟩
    · cases h0 : extractRow cols r0 with
      | error e => exact ⟨e, by rw [extractRows, h0]⟩
      | ok rec0 =>
        obtain ⟨e, he⟩ := ih hmem2
        exact ⟨e, by rw [extractRows, h0, he]⟩

/-! ## Helper lemmas: stat extraction and per-update retrieval -/

theorem extract_stats_ok_spacing (p : DetailPage) (stats : List String) (d : Datetime)
    (df : DataFrame) (h : _extract_stats p stats d = Except.ok df) :
    ∃ mb secs, df.rows = [(Idx.date d, processSections mb secs)] ∧
      spacingItemTexts p = secs.flatMap sectionItems := by
  cases hteams : p.teamsColumns with
  | none => simp [_extract_stats, hteams] at h
  | some cols =>
  cases hmeta : p.metaText with
  | none => simp [_extract_stats, hteams, hmeta] at h
  | some metaT =>
  cases hpm : processMeta (processColumns [] cols) metaT with
  | error e => simp [_extract_stats, hteams, hmeta, hpm] at h
  | ok m1 =>
  cases hcs : cardSection p m1 with
  | error e => simp [_extract_stats, hteams, hmeta, hpm, hcs] at h
  | ok m2 =>
  cases hsp : p.spacingTables with
  | none => simp [_extract_stats, hteams, hmeta, hpm, hcs, hsp] at h
  | some tables =>
  cases ht0 : tables[0]? with
  | none => simp [_extract_stats, hteams, hmeta, hpm, hcs, hsp, ht0] at h
  | some t0 =>
  cases ht1 : tables[1]? with
  | none => simp [_extract_stats, hteams, hmeta, hpm, hcs, hsp, ht0, ht1] at h
  | some t1 =>
  simp only [_extract_stats, hteams, hmeta, hpm, hcs, hsp, ht0, ht1] at h
  injection h with h2
  subst h2
  exact ⟨m2, t0 ++ t1, rfl, by simp [spacingItemTexts, hsp, ht0, ht1]⟩

theorem extract_stats_ok_rows (p : DetailPage) (stats : List String) (d : Datetime)
    (df : DataFrame) (h : _extract_stats p stats d = Except.ok df) :
    ∃ m, df.rows = [(Idx.date d, m)] := by
  obtain ⟨mb, secs, hrows, _⟩ := extract_stats_ok_spacing p stats d df h
  exact ⟨processSections mb secs, hrows⟩

theorem by_update_snd (fetch : String → DetailPage) (purl : String) (stats : List String)
    (v u : Nat) :
    (retrieve_player_stats_by_fifa_update fetch purl stats v u).2 = [updateUrl purl v u] := rfl

theorem by_update_rows_dated (fetch : String → DetailPage) (purl : String) (stats : List String)
    (v u : Nat) (df : DataFrame)
    (h : (retrieve_player_stats_by_fifa_update fetch purl stats v u).1 = Except.ok df) :
    ∀ r ∈ df.rows, ∃ d, _parse_fifa_update_date (fetch (updateUrl purl v u)) = Except.ok d ∧
      r.1 = Idx.date d := by
  unfold retrieve_player_stats_by_fifa_update at h
  cases hvalid : _source_update_version_is_valid (fetch (updateUrl purl v u)) v with
  | error e => simp [hvalid] at h
  | ok b =>
    cases b with
    | false =>
      simp only [hvalid] at h
      injection h with h2
      subst h2
      intro r hr
      exact absurd hr (List.not_mem_nil r)
    | true =>
      simp only [hvalid] at h
      cases hdate : _parse_fifa_update_date (fetch (updateUrl purl v u)) with
      | error e => simp [hdate] at h
      | ok d =>
        simp only [hdate] at h
        obtain ⟨m, hm⟩ := extract_stats_ok_rows _ _ _ _ h
        intro r hr
        rw [hm] at hr
        rcases List.mem_singleton.mp hr with rfl
        exact ⟨d, rfl, rfl⟩

theorem by_update_rows_le_one (fetch : String → DetailPage) (purl : String) (stats : List String)
    (v u : Nat) (df : DataFrame)
    (h : (retrieve_player_stats_by_fifa_update fetch purl stats v u).1 = Except.ok df) :
    df.rows.length ≤ 1 := by
  unfold retrieve_player_stats_by_fifa_update at h
  cases hvalid : _source_update_version_is_valid (fetch (updateUrl purl v u)) v with
  | error e => simp [hvalid] at h
  | ok b =>
    cases b with
    | false =>
      simp only [hvalid] at h
      injection h with h2
      subst h2
      simp
    | true =>
      simp only [hvalid] at h
      cases hdate : _parse_fifa_update_date (fetch (updateUrl purl v u)) with
      | error e => simp [hdate] at h
      | ok d =>
        simp only [hdate] at h
        obtain ⟨m, hm⟩ := extract_stats_ok_rows _ _ _ _ h
        rw [hm]
        simp

theorem runUpdates_ok (fetch : String → DetailPage) (purl : String) (stats : List String)
    (v : Nat) (us : List Nat) (dfs : List DataFrame) (log : List String)
    (h : runUpdates fetch purl stats v us = (Except.ok dfs, log)) :
    log = us.map (updateUrl purl v) ∧ dfs.length = us.length ∧
      ∀ df ∈ dfs, df.rows.length ≤ 1 := by
  induction us generalizing dfs log with
  | nil =>
    rw [runUpdates] at h
    injection h with h1 h2
    injection h1 with h1
    subst h1
    subst h2
    simp
  | cons u us ih =>
    rw [runUpdates] at h
    cases hr : retrieve_player_stats_by_fifa_update fetch purl stats v u with
    | mk r1 l1 =>
      rw [hr] at h
      cases r1 with
      | error e => simp at h
      | ok df0 =>
        cases hrr : runUpdates fetch purl stats v us with
        | mk r2 l2 =>
          rw [hrr] at h
          cases r2 with
          | error e => simp [Except.map] at h
          | ok dfs2 =>
            simp only [Except.map] at h
            injection h with h1 h2
            injection h1 with h1
            subst h1
            subst h2
            have hl1 : l1 = [updateUrl purl v u] := by
              have hsnd := congrArg Prod.snd hr
              rw [by_update_snd] at hsnd
              exact hsnd.symm
            have hfst : (retrieve_player_stats_by_fifa_update fetch purl stats v u).1 =
                Except.ok df0 := by
              rw [hr]
            have hdf0 := by_update_rows_le_one fetch purl stats v u df0 hfst
            obtain ⟨ihlog, ihlen, ihall⟩ := ih dfs2 l2 hrr
            subst hl1
            subst ihlog
            refine ⟨by simp, by simp [ihlen], ?_⟩
            intro df hdf
            rcases List.mem_cons.mp hdf with rfl | hmem
            · exact hdf0
            · exact ihall df hmem

/-! ## Helper lemmas: workers and aggregation -/

theorem by_version_ok_catalog (fetch : String → DetailPage) (base pid : String)
    (stats : List String) (v : Nat) (df : DataFrame)
    (h : (retrieve_player_stats_by_fifa_version fetch base pid stats v).1 = Except.ok df) :
    (LAST_UPDATE_PER_FIFA_VERSION v).isSome = true := by
  cases hcat : LAST_UPDATE_PER_FIFA_VERSION v with
  | none => simp [retrieve_player_stats_by_fifa_version, hcat] at h
  | some c => simp

theorem statsForPlayerVersion_ok_catalog (fetch : String → DetailPage) (base : String)
    (stats : List String) (pid : String) (v : Nat) (df : DataFrame)
    (h : (statsForPlayerVersion fetch base stats pid v).1 = Except.ok df) :
    (LAST_UPDATE_PER_FIFA_VERSION v).isSome = true := by
  unfold statsForPlayerVersion at h
  cases hbv : retrieve_player_stats_by_fifa_version fetch base pid stats v with
  | mk r l =>
    rw [hbv] at h
    cases r with
    | error e => simp at h
    | ok df2 =>
      exact by_version_ok_catalog fetch base pid stats v df2 (by rw [hbv])

theorem collectStats_ok (fetch : String → DetailPage) (base : String) (stats : List String)
    (pairs : List (String × Nat)) (dfs : List DataFrame) (log : List String)
    (h : collectStats fetch base stats pairs = (Except.ok dfs, log)) :
    dfs.length = pairs.length ∧
      ∀ pr ∈ pairs, ∃ d2, (statsForPlayerVersion fetch base stats pr.1 pr.2).1 = Except.ok d2 := by
  induction pairs generalizing dfs log with
  | nil =>
    rw [collectStats] at h
    injection h with h1 h2
    injection h1 with h1
    subst h1
    simp
  | cons pr rest ih =>
    obtain ⟨pid, v⟩ := pr
    rw [collectStats] at h
    cases hs : statsForPlayerVersion fetch base stats pid v with
    | mk r1 l1 =>
      rw [hs] at h
      cases r1 with
      | error e => simp at h
      | ok df0 =>
        cases hrr : collectStats fetch base stats rest with
        | mk r2 l2 =>
          rw [hrr] at h
          cases r2 with
          | error e => simp [Except.map] at h
          | ok dfs2 =>
            simp only [Except.map] at h
            injection h with h1 h2
            injection h1 with h1
            subst h1
            obtain ⟨ihlen, ihall⟩ := ih dfs2 l2 hrr
            refine ⟨by simp [ihlen], ?_⟩
            intro pr2 hpr2
            rcases List.mem_cons.mp hpr2 with rfl | hmem
            · exact ⟨df0, by rw [hs]⟩
            · exact ihall pr2 hmem

theorem single_thread_empty_chunk (fetch : String → DetailPage) (self : HistoricalScraper)
    (stats : List String) (sv ev : Nat) (sv0 : Bool) :
    _single_thread_download_historical_player_statistics fetch self [] stats sv ev sv0 =
      (Except.error "ValueError: No objects to concatenate", []) := rfl

theorem single_thread_ok_strong (fetch : String → DetailPage) (self : HistoricalScraper)
    (cids : List String) (stats : List String) (sv ev : Nat) (sv0 : Bool) (df : DataFrame)
    (h : (_single_thread_download_historical_player_statistics fetch self cids stats sv ev sv0).1 =
      Except.ok df) :
    cids ≠ [] ∧ ∀ v, sv ≤ v → v ≤ ev → (LAST_UPDATE_PER_FIFA_VERSION v).isSome = true := by
  unfold _single_thread_download_historical_player_statistics at h
  cases hcol : collectStats fetch self.player_statistics_url stats
      (cids.flatMap fun pid => (List.range' sv (ev + 1 - sv)).map fun v => (pid, v)) with
  | mk r l =>
    rw [hcol] at h
    cases r with
    | error e => simp at h
    | ok dfs =>
      simp only at h
      have hne : dfs ≠ [] := by
        intro hnil
        subst hnil
        simp [pdConcat] at h
      obtain ⟨hlen, hall⟩ := collectStats_ok _ _ _ _ _ _ hcol
      have hpairs : (cids.flatMap fun pid => (List.range' sv (ev + 1 - sv)).map fun v => (pid, v)) ≠ [] := by
        intro hnil
        rw [hnil] at hlen
        simp at hlen
        exact hne hlen
      have hcids : cids ≠ [] := by
        intro hnil
        subst hnil
        simp at hpairs
      refine ⟨hcids, ?_⟩
      intro v hsv hev
      have hvmem : v ∈ List.range' sv (ev + 1 - sv) := by
        rw [List.mem_range'_1]
        omega
      obtain ⟨pid0, hpid0⟩ := List.exists_mem_of_ne_nil cids hcids
      have hmem : (pid0, v) ∈ (cids.flatMap fun pid => (List.range' sv (ev + 1 - sv)).map fun v => (pid, v)) := by
        rw [List.mem_flatMap]
        exact ⟨pid0, hpid0, List.mem_map_of_mem _ hvmem⟩
      obtain ⟨d2, hd2⟩ := hall (pid0, v) hmem
      exact statsForPlayerVersion_ok_catalog fetch self.player_statistics_url stats pid0 v d2 hd2

theorem sequenceExcept_ok_mem (l : List (Except String α)) (xs : List α)
    (h : sequenceExcept l = Except.ok xs) : ∀ e ∈ l, ∃ a, e = Except.ok a := by
  induction l generalizing xs with
  | nil => intro e he; exact absurd he (List.not_mem_nil e)
  | cons e0 rest ih =>
    cases e0 with
    | error msg => simp [sequenceExcept] at h
    | ok a0 =>
      rw [sequenceExcept] at h
      cases hseq : sequenceExcept rest with
      | error msg => rw [hseq] at h; simp [Except.map] at h
      | ok ys =>
        intro e he
        rcases List.mem_cons.mp he with rfl | hmem
        · exact ⟨a0, rfl⟩
        · exact ih ys hseq e hmem

theorem download_ok_chunks (fetch : String → DetailPage) (self : HistoricalScraper)
    (ids stats : List String) (sv ev n : Nat) (df : DataFrame) (log : List String)
    (h : download_historical_player_statistics fetch self ids stats sv ev n = (Except.ok df, log)) :
    n ≠ 0 ∧ ∀ c ∈ takeChunks ids (chunkSizes ids.length n), ∃ dfc,
      (_single_thread_download_historical_player_statistics fetch self c stats sv ev true).1 =
        Except.ok dfc := by
  unfold download_historical_player_statistics at h
  cases hsp : _compute_id_splits ids n with
  | error e => rw [hsp] at h; simp at h
  | ok chunks =>
    rw [hsp] at h
    have hn0 : n ≠ 0 := by
      intro hn
      subst hn
      simp [_compute_id_splits] at hsp
    have hchunks : chunks = takeChunks ids (chunkSizes ids.length n) := by
      unfold _compute_id_splits at hsp
      rw [if_neg hn0] at hsp
      injection hsp with hsp
      exact hsp.symm
    subst hchunks
    refine ⟨hn0, ?_⟩
    intro c hc
    cases hseq : sequenceExcept ((takeChunks ids (chunkSizes ids.length n)).map (fun c2 =>
        _single_thread_download_historical_player_statistics fetch self c2 stats sv ev true)
        |>.map Prod.fst) with
    | error e =>
      simp only at h
      rw [hseq] at h
      simp at h
    | ok dfs =>
      have hmem : (_single_thread_download_historical_player_statistics fetch self c stats sv ev
          true).1 ∈ ((takeChunks ids (chunkSizes ids.length n)).map (fun c2 =>
          _single_thread_download_historical_player_statistics fetch self c2 stats sv ev true)
          |>.map Prod.fst) := by
        rw [List.map_map]
        exact List.mem_map_of_mem _ hc
      obtain ⟨a, ha⟩ := sequenceExcept_ok_mem _ dfs hseq _ hmem
      exact ⟨a, ha⟩

theorem enum_relabel_fst (l : List (Idx × SkillMap)) :
    (l.enum.map (fun p => (Idx.nat p.1, p.2.2))).map Prod.fst = (List.range l.length).map Idx.nat := by
  rw [List.map_map]
  have : (Prod.fst ∘ fun p : Nat × (Idx × SkillMap) => (Idx.nat p.1, p.2.2)) =
      (Idx.nat ∘ Prod.fst) := rfl
  rw [this, ← List.map_map, List.enum_map_fst]

theorem download_ok_renumbered (fetch : String → DetailPage) (self : HistoricalScraper)
    (ids stats : List String) (sv ev n : Nat) (df : DataFrame) (log : List String)
    (h : download_historical_player_statistics fetch self ids stats sv ev n = (Except.ok df, log)) :
    df.rows.map Prod.fst = (List.range df.rows.length).map Idx.nat := by
  unfold download_historical_player_statistics at h
  cases hsp : _compute_id_splits ids n with
  | error e => rw [hsp] at h; simp at h
  | ok chunks =>
    rw [hsp] at h
    simp only at h
    cases hseq : sequenceExcept ((chunks.map (fun c =>
        _single_thread_download_historical_player_statistics fetch self c stats sv ev true)).map
        Prod.fst) with
    | error e => rw [hseq] at h; simp at h
    | ok dfs =>
      rw [hseq] at h
      cases dfs with
      | nil => simp [pdConcatIgnoreIndex] at h
      | cons d0 drest =>
        simp only [pdConcatIgnoreIndex] at h
        injection h with h1 h2
        injection h1 with h1
        subst h1
        rw [enum_relabel_fst]
        have : ((((d0 :: drest).map DataFrame.rows).flatten).enum.map
            (fun p => (Idx.nat p.1, p.2.2))).length =
            (((d0 :: drest).map DataFrame.rows).flatten).length := by
          rw [List.length_map, List.enum_length]
        rw [this]

/-! ## Claim theorems -/

/-- C1 (amended): on a listing page whose table body holds K well-formed
rows, `extract_player_attributes` returns exactly K records whose id,
name, nationality, overall, potential and value fields are the embedded
identifier, second-anchor display name, nationality title attribute and
the trimmed overall, potential and value cell texts — and whose club
field is the text of the first anchor of the club cell, not the trimmed
club cell text. -/
theorem claim_C1 (p : ListingPage) (rows : List (List TdCell)) (cols : List String)
    (hp : p.tbody = some rows) (hc : cols.length = 7)
    (hwf : ∀ r ∈ rows, wellFormedRow r = true) :
    extract_player_attributes p cols = Except.ok ⟨cols, rows.map rowFields⟩ := by
  have hstruct : ∀ r ∈ rows, rowStructOk r = true := by
    intro r hr
    have hw := hwf r hr
    simp only [wellFormedRow, Bool.and_eq_true] at hw
    exact hw.1.1
  unfold extract_player_attributes
  simp only [hp, extractRows_ok_of_struct cols rows hstruct hc]

/-- C1 witness: the amended claim evaluated on a concrete one-row page. -/
theorem claim_C1_witness :
    extract_player_attributes fixListing SEVEN_COLS =
      Except.ok ⟨SEVEN_COLS, [rowFields fixRow]⟩ :=
  claim_C1 fixListing [fixRow] SEVEN_COLS rfl (by decide) (by decide)

/-- C1 counterexample to the claim as stated: on a well-formed row whose
club cell text differs from its anchor text, the extracted club field is
the anchor text, not the trimmed text of the club cell. -/
theorem claim_C1_counterexample :
    wellFormedRow fixRow = true ∧
    extract_player_attributes fixListing SEVEN_COLS =
      Except.ok ⟨SEVEN_COLS, [rowFields fixRow]⟩ ∧
    (rowFields fixRow).club = "FC Barcelona" ∧
    pyStrip (fixRow.getD 5 defaultTd).text = "FC Barcelona extra" ∧
    (rowFields fixRow).club ≠ pyStrip (fixRow.getD 5 defaultTd).text := by decide

/-- C2: when the version banner of the fetched detail page parses to a
version string different from the requested one, the per-update
retrieval returns an empty DataFrame, raises nothing, and has issued
exactly the one URL of that revision. -/
theorem claim_C2 (fetch : String → DetailPage) (purl : String) (stats : List String)
    (v u : Nat) (car : Carousel) (ds : String)
    (hcar : (fetch (updateUrl purl v u)).carousel = some car)
    (hds : fifaBannerDigits car.text = some ds)
    (hne : ds ≠ toString v) :
    retrieve_player_stats_by_fifa_update fetch purl stats v u =
      (Except.ok ⟨[]⟩, [updateUrl purl v u]) := by
  have hvalid : _source_update_version_is_valid (fetch (updateUrl purl v u)) v =
      Except.ok false := by
    unfold _source_update_version_is_valid
    simp only [hcar, hds]
    have : decide (toString v = ds) = false := decide_eq_false (fun hh => hne hh.symm)
    rw [this]
  unfold retrieve_player_stats_by_fifa_update
  simp only [hvalid]

/-- C2 witness: a FIFA 19 page requested for FIFA 20 revision 3 yields
the empty table and no error. -/
theorem claim_C2_witness :
    retrieve_player_stats_by_fifa_update mismatchFetch "https://sofifa.com/player/7" [] 20 3 =
      (Except.ok ⟨[]⟩, [updateUrl "https://sofifa.com/player/7" 20 3]) :=
  claim_C2 mismatchFetch "https://sofifa.com/player/7" [] 20 3
    ⟨"FIFA 19 Sep 2019", some "24"⟩ "19" (by decide) (by decide) (by decide)

/-- C3: for a version with C catalogued revisions, a successful
per-version retrieval issues exactly C page requests, whose URLs are the
revision URLs for 1 through C with the revision number zero-padded to
two digits, and the returned table has at most C rows. -/
theorem claim_C3 (fetch : String → DetailPage) (base pid : String) (stats : List String)
    (v c : Nat) (df : DataFrame) (log : List String)
    (hc : LAST_UPDATE_PER_FIFA_VERSION v = some c)
    (h : retrieve_player_stats_by_fifa_version fetch base pid stats v = (Except.ok df, log)) :
    log.length = c ∧ log = (List.range' 1 c).map (updateUrl (base ++ pid) v) ∧
      df.rows.length ≤ c := by
  unfold retrieve_player_stats_by_fifa_version at h
  simp only [hc] at h
  cases hru : runUpdates fetch (base ++ pid) stats v (List.range' 1 c) with
  | mk r l =>
    rw [hru] at h
    cases r with
    | error e => simp at h
    | ok dfs =>
      simp only at h
      injection h with h1 h2
      subst h2
      obtain ⟨hlog, hlen, hall⟩ := runUpdates_ok fetch (base ++ pid) stats v _ dfs l hru
      have hdfslen : dfs.length = c := by rw [hlen, List.length_range']
      have hrowsle : df.rows.length ≤ c := by
        cases dfs with
        | nil => simp [pdConcat] at h1
        | cons d0 drest =>
          simp only [pdConcat] at h1
          injection h1 with h1
          subst h1
          have h1len : ∀ x ∈ ((d0 :: drest).map DataFrame.rows).map List.length, x ≤ 1 := by
            intro x hx
            rw [List.map_map] at hx
            obtain ⟨dx, hdx, hxeq⟩ := List.mem_map.mp hx
            subst hxeq
            exact hall dx hdx
          calc (DataFrame.mk (((d0 :: drest).map DataFrame.rows).flatten)).rows.length
              = (((d0 :: drest).map DataFrame.rows).map List.length).sum := by
                simp [List.length_flatten]
            _ ≤ (((d0 :: drest).map DataFrame.rows).map List.length).length :=
                sum_le_length_of_all_le_one _ h1len
            _ = c := by simp [← hdfslen]
      refine ⟨?_, hlog, hrowsle⟩
      rw [hlog, List.length_map, List.length_range']

/-- C3 witness: the FIFA 20 catalog holds 8 revisions; against the
mismatching oracle all 8 URLs are requested and the table is empty. -/
theorem claim_C3_witness :
    c3res.2.length = 8 ∧
    c3res.2 = (List.range' 1 8).map (updateUrl ("https://sofifa.com/player/" ++ "7") 20) ∧
    (DataFrame.mk []).rows.length ≤ 8 :=
  claim_C3 mismatchFetch "https://sofifa.com/player/" "7" [] 20 8 ⟨[]⟩ c3res.2
    (by decide) (by decide)

/-- C4: splitting M ids over N workers (N positive) yields exactly N
contiguous chunks whose in-order concatenation is the original sequence,
any two chunk sizes differing by at most one. -/
theorem claim_C4 {β : Type} (l : List β) (n : Nat) (cs : List (List β)) (hn : 1 ≤ n)
    (h : _compute_id_splits l n = Except.ok cs) :
    cs.length = n ∧ cs.flatten = l ∧ ∀ c1 ∈ cs, ∀ c2 ∈ cs, c1.length ≤ c2.length + 1 := by
  have hn0 : n ≠ 0 := by omega
  unfold _compute_id_splits at h
  rw [if_neg hn0] at h
  injection h with h
  subst h
  have hsum : (chunkSizes l.length n).sum = l.length := chunkSizes_sum l.length n hn0
  have hsumle : (chunkSizes l.length n).sum ≤ l.length := le_of_eq hsum
  refine ⟨?_, ?_, ?_⟩
  · rw [takeChunks_length, chunkSizes_length _ _ hn0]
  · rw [takeChunks_flatten _ _ hsumle, hsum, List.take_length]
  · intro c1 h1 c2 h2
    have hm : (takeChunks l (chunkSizes l.length n)).map List.length = chunkSizes l.length n :=
      takeChunks_map_length _ _ hsumle
    have hc1 : c1.length ∈ chunkSizes l.length n := by
      rw [← hm]
      exact List.mem_map_of_mem List.length h1
    have hc2 : c2.length ∈ chunkSizes l.length n := by
      rw [← hm]
      exact List.mem_map_of_mem List.length h2
    rcases chunkSizes_mem _ _ _ hc1 with e1 | e1 <;>
      rcases chunkSizes_mem _ _ _ hc2 with e2 | e2 <;> omega

/-- C4 witness: five ids over two workers give chunks of sizes 3 and 2. -/
theorem claim_C4_witness :
    ([["a", "b", "c"], ["d", "e"]] : List (List String)).length = 2 ∧
    ([["a", "b", "c"], ["d", "e"]] : List (List String)).flatten = ["a", "b", "c", "d", "e"] ∧
    ∀ c1 ∈ ([["a", "b", "c"], ["d", "e"]] : List (List String)),
      ∀ c2 ∈ ([["a", "b", "c"], ["d", "e"]] : List (List String)),
        c1.length ≤ c2.length + 1 :=
  claim_C4 ["a", "b", "c", "d", "e"] 2 [["a", "b", "c"], ["d", "e"]] (by decide) (by decide)

/-- C5 (amended): every stat row produced for a valid revision is keyed
by the calendar date extracted from that revision page, but the final
aggregated table of `download_historical_player_statistics` is
relabelled 0, 1, 2, ... by its ignore-index concatenation, so the date
keys do not survive into it. -/
theorem claim_C5 :
    (∀ (fetch : String → DetailPage) (purl : String) (stats : List String) (v u : Nat)
        (df : DataFrame),
      (retrieve_player_stats_by_fifa_update fetch purl stats v u).1 = Except.ok df →
      ∀ r ∈ df.rows, ∃ d, _parse_fifa_update_date (fetch (updateUrl purl v u)) = Except.ok d ∧
        r.1 = Idx.date d) ∧
    (∀ (fetch : String → DetailPage) (self : HistoricalScraper) (ids stats : List String)
        (sv ev n : Nat) (df : DataFrame) (log : List String),
      download_historical_player_statistics fetch self ids stats sv ev n = (Except.ok df, log) →
      df.rows.map Prod.fst = (List.range df.rows.length).map Idx.nat) :=
  ⟨by_update_rows_dated, download_ok_renumbered⟩

/-- C5 witness: the one row retrieved from the valid fixture page is
keyed by its extracted date. -/
theorem claim_C5_witness :
    ∃ d, _parse_fifa_update_date (validFetch (updateUrl "u" 20 1)) = Except.ok d ∧
      (Idx.date fixDate,
        ([("Height", PyVal.str fixHeight), ("Weight", PyVal.str "170lbs")] : SkillMap)).1 =
        Idx.date d :=
  claim_C5.1 validFetch "u" [] 20 1 c5df (by decide)
    (Idx.date fixDate, [("Height", PyVal.str fixHeight), ("Weight", PyVal.str "170lbs")])
    (by decide)

/-- C5 counterexample to the claim as stated: a one-player FIFA 20
download against the valid oracle keys every per-revision row by the
extracted date 24 Sep 2019, yet the final aggregated table carries the
integer labels 0 to 7 and none of its keys is that date. -/
theorem claim_C5_counterexample :
    ((retrieve_player_stats_by_fifa_update validFetch ("https://sofifa.com/player/" ++ "a")
        [] 20 1).1.map (fun df => df.rows.map Prod.fst)) = Except.ok [Idx.date fixDate] ∧
    ((download_historical_player_statistics validFetch fixScraper ["a"] [] 20 20 1).1.map
        (fun df => df.rows.map Prod.fst)) = Except.ok ((List.range 8).map Idx.nat) ∧
    ((List.range 8).map Idx.nat).all (fun i => decide (i ≠ Idx.date fixDate)) = true := by
  decide

/-- C6: the resume id selection of main.py computes exactly the set
difference of the fresh id set and the previous output id set, without
duplicates. -/
theorem claim_C6 {α : Type} [LinearOrder α] [DecidableEq α] (F P : List α) :
    (∀ x, x ∈ players_ids_to_compute F P ↔ x ∈ F ∧ x ∉ P) ∧
    (players_ids_to_compute F P).Nodup := by
  constructor
  · intro x
    unfold players_ids_to_compute np_setdiff1d np_unique
    rw [List.mem_filter, (List.perm_insertionSort (· ≤ ·) F.dedup).mem_iff, List.mem_dedup]
    simp
  · unfold players_ids_to_compute np_setdiff1d np_unique
    exact List.Nodup.filter _
      (((List.perm_insertionSort (· ≤ ·) F.dedup).symm).nodup (List.nodup_dedup F))

/-- C7: a listing page containing a structurally malformed row (an
expected cell, img or anchor absent) makes the whole page extraction
raise, so no partial record set is returned. -/
theorem claim_C7 (p : ListingPage) (rows : List (List TdCell)) (cols : List String)
    (r : List TdCell) (hp : p.tbody = some rows) (hmem : r ∈ rows)
    (hbad : rowStructOk r = false) :
    ∃ e, extract_player_attributes p cols = Except.error e := by
  obtain ⟨e, he⟩ := extractRows_error_of_bad_row cols rows r hmem hbad
  refine ⟨e, ?_⟩
  unfold extract_player_attributes
  simp only [hp, he]

/-- C7 witness: a page whose second row has no cells fails whole. -/
theorem claim_C7_witness :
    ∃ e, extract_player_attributes fixBadListing SEVEN_COLS = Except.error e :=
  claim_C7 fixBadListing [fixRow, [⟨none, [], ""⟩]] SEVEN_COLS [⟨none, [], ""⟩]
    rfl (by decide) (by decide)

/-- C8 (amended): for a list item of the two columns-spacing sections,
the stored entry is keyed by the concatenated ASCII letters of the item
text (not by its full non-numeric substring) and carries its first
embedded integer, 0 when the text has no digit; the key survives to the
returned row when no later item shares it. -/
theorem claim_C8 (p : DetailPage) (stats : List String) (d : Datetime) (df : DataFrame)
    (pre post : List String) (t : String)
    (h : _extract_stats p stats d = Except.ok df)
    (hsplit : spacingItemTexts p = pre ++ t :: post)
    (hlast : ∀ t2 ∈ post, alphaOnly t2 ≠ alphaOnly t) :
    ∃ m, df.rows.map Prod.snd = [m] ∧
      dlookup (alphaOnly t) m = some (PyVal.int (firstIntD t)) := by
  obtain ⟨mb, secs, hrows, hitems⟩ := extract_stats_ok_spacing p stats d df h
  refine ⟨processSections mb secs, by rw [hrows]; rfl, ?_⟩
  have hsecs : secs.flatMap sectionItems = pre ++ t :: post := hitems.symm.trans hsplit
  rw [processSections_eq_applyEntries, hsecs, List.map_append, List.map_cons]
  exact dlookup_applyEntries_last (alphaOnly t) (PyVal.int (firstIntD t)) mb
    (pre.map spacingEntry) (post.map spacingEntry)
    (by
      intro e he
      obtain ⟨t2, ht2, rfl⟩ := List.mem_map.mp he
      exact hlast t2 ht2)

/-- C8 witness: the spacing item `A B1` stores the entry `AB` with
value 1 in the extracted row. -/
theorem claim_C8_witness :
    ∃ m, (DataFrame.mk [(Idx.date fixDate, [("Height", PyVal.str fixHeight),
        ("Weight", PyVal.str "170lbs"), ("AB", PyVal.int 1)])]).rows.map Prod.snd = [m] ∧
      dlookup (alphaOnly "A B1") m = some (PyVal.int (firstIntD "A B1")) :=
  claim_C8 spacingPage [] fixDate
    ⟨[(Idx.date fixDate, [("Height", PyVal.str fixHeight), ("Weight", PyVal.str "170lbs"),
      ("AB", PyVal.int 1)])]⟩ [] [] "A B1" (by decide) (by decide)
    (fun t2 h2 => absurd h2 (List.not_mem_nil t2))

/-- C8 counterexample to the claim as stated: the item text `A B1` is
stored under the key `AB` (its letters), not under its non-numeric
substring `A B`, which is absent from the extracted row. -/
theorem claim_C8_counterexample :
    _extract_stats spacingPage [] fixDate =
      Except.ok ⟨[(Idx.date fixDate, [("Height", PyVal.str fixHeight),
        ("Weight", PyVal.str "170lbs"), ("AB", PyVal.int 1)])]⟩ ∧
    spacingItemTexts spacingPage = ["A B1"] ∧
    nonNumericSubstring "A B1" = "A B" ∧
    alphaOnly "A B1" ≠ nonNumericSubstring "A B1" ∧
    dlookup (nonNumericSubstring "A B1") [("Height", PyVal.str fixHeight),
      ("Weight", PyVal.str "170lbs"), ("AB", PyVal.int 1)] = none ∧
    dlookup "AB" [("Height", PyVal.str fixHeight), ("Weight", PyVal.str "170lbs"),
      ("AB", PyVal.int 1)] = some (PyVal.int 1) := by decide

/-- C9: a worker handed an empty chunk raises when concatenating its
zero accumulated tables, and a download that returns a table therefore
had no empty chunk: the worker count is at most the number of ids. -/
theorem claim_C9 :
    (∀ (fetch : String → DetailPage) (self : HistoricalScraper) (stats : List String)
        (sv ev : Nat) (sv0 : Bool),
      (_single_thread_download_historical_player_statistics fetch self [] stats sv ev sv0).1 =
        Except.error "ValueError: No objects to concatenate") ∧
    (∀ (fetch : String → DetailPage) (self : HistoricalScraper) (ids stats : List String)
        (sv ev n : Nat) (df : DataFrame) (log : List String),
      download_historical_player_statistics fetch self ids stats sv ev n = (Except.ok df, log) →
      n ≤ ids.length) := by
  constructor
  · intro fetch self stats sv ev sv0
    rfl
  · intro fetch self ids stats sv ev n df log h
    by_contra hgt
    push_neg at hgt
    obtain ⟨hn0, hall⟩ := download_ok_chunks fetch self ids stats sv ev n df log h
    have hq : ids.length / n = 0 := Nat.div_eq_of_lt hgt
    have hr : ids.length % n = ids.length := Nat.mod_eq_of_lt hgt
    have h0mem : (0 : Nat) ∈ chunkSizes ids.length n := by
      unfold chunkSizes
      rw [hq, hr]
      refine List.mem_append.mpr (Or.inr ?_)
      rw [List.mem_replicate]
      refine ⟨?_, rfl⟩
      omega
    have hsum : (chunkSizes ids.length n).sum = ids.length := chunkSizes_sum _ _ hn0
    have hml : (takeChunks ids (chunkSizes ids.length n)).map List.length =
        chunkSizes ids.length n := takeChunks_map_length _ _ (le_of_eq hsum)
    rw [← hml] at h0mem
    obtain ⟨c, hc, hclen⟩ := List.mem_map.mp h0mem
    have hcnil : c = [] := List.length_eq_zero.mp hclen
    obtain ⟨dfc, hdfc⟩ := hall c hc
    rw [hcnil] at hdfc
    have hfst : (_single_thread_download_historical_player_statistics fetch self [] stats sv ev
        true).1 = Except.error "ValueError: No objects to concatenate" := by
      rw [single_thread_empty_chunk]
    rw [hfst] at hdfc
    exact Except.noConfusion hdfc

/-- C9 witness: a one-id one-thread download that succeeds, instantiating
the bound 1 at most 1. -/
theorem claim_C9_witness : 1 ≤ (["a"] : List String).length :=
  claim_C9.2 validFetch fixScraper ["a"] [] 20 20 1 c9df c9res.2 (by decide)

/-- C10: the revision catalog is defined exactly on versions 16 to 20;
for any other version the per-version retrieval raises the dict KeyError
before issuing any request, and a download that returns a table had its
whole version range inside the catalog domain. -/
theorem claim_C10 :
    (∀ v, (LAST_UPDATE_PER_FIFA_VERSION v).isSome = true ↔
      v = 16 ∨ v = 17 ∨ v = 18 ∨ v = 19 ∨ v = 20) ∧
    (∀ (fetch : String → DetailPage) (base pid : String) (stats : List String) (v : Nat),
      LAST_UPDATE_PER_FIFA_VERSION v = none →
      retrieve_player_stats_by_fifa_version fetch base pid stats v =
        (Except.error "KeyError", [])) ∧
    (∀ (fetch : String → DetailPage) (self : HistoricalScraper) (ids stats : List String)
        (sv ev n : Nat) (df : DataFrame) (log : List String),
      download_historical_player_statistics fetch self ids stats sv ev n = (Except.ok df, log) →
      ∀ v, sv ≤ v → v ≤ ev → (LAST_UPDATE_PER_FIFA_VERSION v).isSome = true) := by
  refine ⟨?_, ?_, ?_⟩
  · intro v
    constructor
    · intro h
      by_contra hc
      push_neg at hc
      obtain ⟨n1, n2, n3, n4, n5⟩ := hc
      simp [LAST_UPDATE_PER_FIFA_VERSION, n1, n2, n3, n4, n5] at h
    · intro h
      rcases h with rfl | rfl | rfl | rfl | rfl <;> simp [LAST_UPDATE_PER_FIFA_VERSION]
  · intro fetch base pid stats v h
    unfold retrieve_player_stats_by_fifa_version
    simp only [h]
  · intro fetch self ids stats sv ev n df log h v hsv hev
    obtain ⟨hn0, hall⟩ := download_ok_chunks fetch self ids stats sv ev n df log h
    have hlen : (takeChunks ids (chunkSizes ids.length n)).length = n := by
      rw [takeChunks_length, chunkSizes_length _ _ hn0]
    have hne : takeChunks ids (chunkSizes ids.length n) ≠ [] := by
      intro hnil
      rw [hnil] at hlen
      simp at hlen
      exact hn0 hlen.symm
    obtain ⟨c0, hc0⟩ := List.exists_mem_of_ne_nil _ hne
    obtain ⟨dfc, hdfc⟩ := hall c0 hc0
    obtain ⟨hcne, hvers⟩ := single_thread_ok_strong fetch self c0 stats sv ev true dfc hdfc
    exact hvers v hsv hev

/-- C10 witness: requesting FIFA 21 raises the KeyError with no URL
requested. -/
theorem claim_C10_witness :
    retrieve_player_stats_by_fifa_version validFetch "https://sofifa.com/player/" "7" [] 21 =
      (Except.error "KeyError", []) :=
  claim_C10.2.1 validFetch "https://sofifa.com/player/" "7" [] 21 (by decide)
